import Mathlib

/-!
Verification of the Bedrock LLM adapter core
(`libs/aws/langchain_aws/llms/bedrock.py`).

The Python code is shallowly embedded: JSON values decoded by `json.loads`
become the inductive `JVal`; Python dicts become association lists
(first occurrence wins on lookup, assignment replaces in place); fallible
Python operations (KeyError, TypeError, AttributeError, IndexError,
ValueError) become `Except Err`.  Generators become functions returning the
list of yielded chunks together with an `Outcome` describing how the
generator finished.  The in-place mutation of the caller-supplied messages
list performed by `prepare_input` is modelled by returning the final state
of that list alongside the request body.  Warnings emitted by
`warnings.warn` are modelled by returning a count of warnings alongside the
result.
-/

set_option autoImplicit false

namespace BedrockSpec

/-- A JSON value as produced by `json.loads` (numbers restricted to
integers, which covers every numeric field the adapter reads). -/
inductive JVal where
  | jnull
  | jbool (b : Bool)
  | jint (n : Int)
  | jstr (s : String)
  | jarr (xs : List JVal)
  | jobj (fields : List (String × JVal))

/-- A Python dict with string keys, as an association list in insertion
order. -/
abbrev JObj := List (String × JVal)

/-- Python errors raised by the adapter code. -/
inductive Err where
  | unknownProvider
  | keyError
  | typeError
  | attributeError
  | indexError
  | valueError
deriving DecidableEq, Repr

/-- First value bound to a key in a dict (Python dicts have unique keys;
lookup takes the first occurrence). -/
def assocFind : JObj → String → Option JVal
  | [], _ => none
  | (k, v) :: rest, key => if k == key then some v else assocFind rest key

/-- Python dict assignment `d[k] = v`: replaces the value in place when the
key exists, appends otherwise. -/
def assocSet : JObj → String → JVal → JObj
  | [], key, v => [(key, v)]
  | (k, w) :: rest, key, v =>
      if k == key then (k, v) :: rest else (k, w) :: assocSet rest key v

/-- Python truthiness of a JSON value. -/
def JVal.truthy : JVal → Bool
  | .jnull => false
  | .jbool b => b
  | .jint n => n != 0
  | .jstr s => s != ""
  | .jarr xs => !xs.isEmpty
  | .jobj fs => !fs.isEmpty

/-- Python `v == s` for a string literal `s` (values of other types never
equal a string). -/
def JVal.isStr : JVal → String → Bool
  | .jstr t, s => t == s
  | _, _ => false

/-- Python `v[k]` for a string key: KeyError on a dict missing the key,
TypeError on every non-dict. -/
def jGet : JVal → String → Except Err JVal
  | .jobj fs, k =>
      match assocFind fs k with
      | some v => .ok v
      | none => .error .keyError
  | _, _ => .error .typeError

/-- Python `v.get(k, d)`: AttributeError on a non-dict. -/
def jGetAttrD : JVal → String → JVal → Except Err JVal
  | .jobj fs, k, d => .ok ((assocFind fs k).getD d)
  | _, _, _ => .error .attributeError

/-- Python `v.get(k)` (default `None`). -/
def jGetAttr (v : JVal) (k : String) : Except Err JVal :=
  jGetAttrD v k .jnull

/-- Python `v[k] = x` on a value known to be a dict (leaves non-dicts
unchanged; every call site has already established the dict shape). -/
def jSetD : JVal → String → JVal → JVal
  | .jobj fs, k, x => .jobj (assocSet fs k x)
  | v, _, _ => v

/-- Python `v[0]`: first element of a list (IndexError when empty), first
character of a string, KeyError on a dict, TypeError otherwise. -/
def pyIdx0 : JVal → Except Err JVal
  | .jarr (x :: _) => .ok x
  | .jarr [] => .error .indexError
  | .jstr s =>
      match s.data with
      | [] => .error .indexError
      | c :: _ => .ok (.jstr (String.mk [c]))
  | .jobj _ => .error .keyError
  | _ => .error .typeError

/-- Decide whether `pat` is a prefix of `s` (character lists). -/
def startsWithL : List Char → List Char → Bool
  | [], _ => true
  | _ :: _, [] => false
  | p :: ps, c :: cs => p == c && startsWithL ps cs

/-- Python `pat in s` for strings (substring containment). -/
def containsL (pat : List Char) : List Char → Bool
  | [] => startsWithL pat []
  | c :: rest => startsWithL pat (c :: rest) || containsL pat rest

/-- Python `k in v` (membership): key lookup on dicts, substring test on
strings, element membership on lists, TypeError otherwise. -/
def jHasKey : JVal → String → Except Err Bool
  | .jobj fs, k => .ok ((assocFind fs k).isSome)
  | .jstr s, k => .ok (containsL k.data s.data)
  | .jarr xs, k => .ok (xs.any fun v => v.isStr k)
  | _, _ => .error .typeError

/-- Python `sum` over a list of numbers: integers and booleans add, any
other element raises TypeError. -/
def sumInts : List JVal → Except Err Int
  | [] => .ok 0
  | .jint n :: rest => do pure (n + (← sumInts rest))
  | .jbool b :: rest => do pure ((if b then 1 else 0) + (← sumInts rest))
  | _ => .error .typeError

/-- Python `sum(v)`: sums a list; an empty string or empty dict also sums
to 0 (no elements), every other value raises TypeError. -/
def jSum : JVal → Except Err Int
  | .jarr xs => sumInts xs
  | .jstr s => if s == "" then .ok 0 else .error .typeError
  | .jobj fs => if fs.isEmpty then .ok 0 else .error .typeError
  | _ => .error .typeError

/-- Python `n + v` for integer `n`: the value must be an int or bool. -/
def jToIntAdd : JVal → Except Err Int
  | .jint n => .ok n
  | .jbool b => .ok (if b then 1 else 0)
  | _ => .error .typeError

/-- Python `a + b` on JSON values. -/
def jAdd : JVal → JVal → Except Err JVal
  | .jint a, .jint b => .ok (.jint (a + b))
  | .jint a, .jbool b => .ok (.jint (a + if b then 1 else 0))
  | .jbool a, .jint b => .ok (.jint ((if a then 1 else 0) + b))
  | .jbool a, .jbool b => .ok (.jint ((if a then 1 else 0) + (if b then 1 else 0)))
  | .jstr a, .jstr b => .ok (.jstr (a ++ b))
  | .jarr a, .jarr b => .ok (.jarr (a ++ b))
  | _, _ => .error .typeError

/-- Parse a decimal integer the way Python `int(str)` does (optional sign,
digits); ValueError otherwise. -/
def parseDigits : List Char → Option Nat
  | [] => none
  | cs => cs.foldl (fun acc? c =>
      match acc? with
      | none => none
      | some acc => if c.isDigit then some (acc * 10 + (c.toNat - 48)) else none)
      (some 0)

/-- Python `int(v)`: ints pass through, bools become 0 or 1, strings are
parsed as decimal integers (ValueError on failure), TypeError otherwise. -/
def jToIntPy : JVal → Except Err Int
  | .jint n => .ok n
  | .jbool b => .ok (if b then 1 else 0)
  | .jstr s =>
      match s.data with
      | '-' :: rest =>
          match parseDigits rest with
          | some n => .ok (-(n : Int))
          | none => .error .valueError
      | cs =>
          match parseDigits cs with
          | some n => .ok (n : Int)
          | none => .error .valueError
  | _ => .error .typeError

/-- `.items()` of a dict; AttributeError on every non-dict. -/
def jFields : JVal → Except Err JObj
  | .jobj fs => .ok fs
  | _ => .error .attributeError

/- ------------------------------------------------------------------
   The alternation formatter (`_human_assistant_format` and its helper
   `_add_newlines_before_ha`), working on character lists with a fuel
   argument so that every definition is structurally recursive and
   kernel-reducible.  The fuel is always at least the string length + 1,
   and every search step consumes at least one character, so the fuel
   never runs out on the actual arguments.
   ------------------------------------------------------------------ -/

/-- Python `s.replace(old, new)`: non-overlapping, left to right.  The
`old` patterns used by the formatter are never empty. -/
def replaceLAux : Nat → List Char → List Char → List Char → List Char
  | 0, _, _, s => s
  | _ + 1, _, _, [] => []
  | fuel + 1, pat, rep, c :: rest =>
      if startsWithL pat (c :: rest) && !pat.isEmpty then
        rep ++ replaceLAux fuel pat rep (List.drop pat.length (c :: rest))
      else
        c :: replaceLAux fuel pat rep rest

def replaceL (pat rep s : List Char) : List Char :=
  replaceLAux (s.length + 1) pat rep s

/-- Python `s.count(sub)`: non-overlapping occurrences. -/
def countSubAux : Nat → List Char → List Char → Nat
  | 0, _, _ => 0
  | _ + 1, _, [] => 0
  | fuel + 1, pat, c :: rest =>
      if startsWithL pat (c :: rest) && !pat.isEmpty then
        1 + countSubAux fuel pat (List.drop pat.length (c :: rest))
      else
        countSubAux fuel pat rest

def countSub (pat s : List Char) : Nat :=
  countSubAux (s.length + 1) pat s

/-- Python `s.find(sub)`: first index of `sub`, -1 when absent. -/
def findPyAux (pat : List Char) : List Char → Int → Int
  | [], _ => -1
  | c :: rest, i =>
      if startsWithL pat (c :: rest) then i else findPyAux pat rest (i + 1)

def findPy (pat s : List Char) : Int :=
  findPyAux pat s 0

def HUMAN_PROMPT : String := "\n\nHuman:"
def ASSISTANT_PROMPT : String := "\n\nAssistant:"

/-- Character-list body of `_add_newlines_before_ha`: for each of the two
role markers, insert two newlines before every occurrence, then twice
collapse three newlines before the marker down to two. -/
def addNewlinesWord (t : List Char) (word : String) : List Char :=
  let t1 := replaceL word.data ("\n\n" ++ word).data t
  let t2 := replaceL ("\n\n\n" ++ word).data ("\n\n" ++ word).data t1
  replaceL ("\n\n\n" ++ word).data ("\n\n" ++ word).data t2

def _add_newlines_before_ha (input_text : String) : String :=
  String.mk (addNewlinesWord (addNewlinesWord input_text.data "Human:") "Assistant:")

/-- The alternation scan of `_human_assistant_format`: at every index the
code checks for the human marker and then the assistant marker, advancing
the expected-turn counter on an in-order occurrence and warning on an
out-of-order one.  Returns the final counter and the number of warnings. -/
def scanAlternation : List Char → Nat → Nat → Nat × Nat
  | [], count, warns => (count, warns)
  | c :: rest, count, warns =>
      let s := c :: rest
      let p1 : Nat × Nat :=
        if startsWithL HUMAN_PROMPT.data s then
          if count % 2 == 0 then (count + 1, warns) else (count, warns + 1)
        else (count, warns)
      let p2 : Nat × Nat :=
        if startsWithL ASSISTANT_PROMPT.data s then
          if p1.1 % 2 == 1 then (p1.1 + 1, p1.2) else (p1.1, p1.2 + 1)
        else p1
      scanAlternation rest p2.1 p2.2

/-- `_human_assistant_format`, returning the formatted prompt together
with the number of advisory warnings emitted via `warnings.warn`. -/
def _human_assistant_format (input_text : String) : String × Nat :=
  let t0 := input_text.data
  let t1 :=
    if countSub "Human:".data t0 == 0 ||
       (decide (findPy "Human:".data t0 > findPy "Assistant:".data t0) &&
        containsL "Assistant:".data t0) then
      (HUMAN_PROMPT ++ " ").data ++ t0
    else t0
  let t2 := if countSub "Assistant:".data t1 == 0 then t1 ++ ASSISTANT_PROMPT.data else t1
  let t3 := if startsWithL "Human:".data t2 then '\n' :: '\n' :: t2 else t2
  let t4 := addNewlinesWord (addNewlinesWord t3 "Human:") "Assistant:"
  let cw := scanAlternation t4 0 0
  let t5 := if cw.1 % 2 == 1 then t4 ++ ASSISTANT_PROMPT.data else t4
  (String.mk t5, cw.2)

/- ------------------------------------------------------------------
   UsageAggregator: `_combine_generation_info_for_llm_result`.
   ------------------------------------------------------------------ -/

/-- The combined record returned by the usage aggregator: the usage dict
(prompt, completion and total token counts) plus the stop reason. -/
structure CombineResult where
  prompt_tokens : Int
  completion_tokens : Int
  total_tokens : Int
  stop_reason : JVal

/-- One iteration of the aggregation loop over a single chunk metadata
map: the nested "usage" object contributes `sum(...)` of its token-count
fields, the "amazon-bedrock-invocationMetrics" object contributes its
scalar counts directly. -/
def combineStepUsage (gi : JObj) (p c : Int) : Except Err (Int × Int) := do
  let pc1 ←
    match assocFind gi "usage" with
    | some usage_info => do
        let hasIn ← jHasKey usage_info "input_tokens"
        let p1 ←
          if hasIn then do
            let v ← jGet usage_info "input_tokens"
            let s ← jSum v
            pure (p + s)
          else pure p
        let hasOut ← jHasKey usage_info "output_tokens"
        let c1 ←
          if hasOut then do
            let v ← jGet usage_info "output_tokens"
            let s ← jSum v
            pure (c + s)
          else pure c
        pure (p1, c1)
    | none => pure (p, c)
  match assocFind gi "amazon-bedrock-invocationMetrics" with
  | some usage_info => do
      let hasIn ← jHasKey usage_info "inputTokenCount"
      let p2 ←
        if hasIn then do
          let v ← jGet usage_info "inputTokenCount"
          let n ← jToIntAdd v
          pure (pc1.1 + n)
        else pure pc1.1
      let hasOut ← jHasKey usage_info "outputTokenCount"
      let c2 ←
        if hasOut then do
          let v ← jGet usage_info "outputTokenCount"
          let n ← jToIntAdd v
          pure (pc1.2 + n)
        else pure pc1.2
      pure (p2, c2)
  | none => pure pc1

/-- One stop-reason update: when the stop code is given and present in
the chunk metadata, its value replaces the running stop reason. -/
def stopUpdate (code : Option String) (sr : JVal) (gi : JObj) : JVal :=
  match code with
  | some sc => match assocFind gi sc with | some v => v | none => sr
  | none => sr

/-- The aggregation loop with its running state (prompt total, completion
total, current stop reason). -/
def combineGo (code : Option String) :
    List JObj → Int → Int → JVal → Except Err CombineResult
  | [], p, c, sr => .ok ⟨p, c, p + c, sr⟩
  | gi :: rest, p, c, sr => do
      let pc ← combineStepUsage gi p c
      combineGo code rest pc.1 pc.2 (stopUpdate code sr gi)

/-- `_combine_generation_info_for_llm_result`: fold usage and stop-reason
information out of a list of chunk metadata maps. -/
def _combine_generation_info_for_llm_result
    (chunks_generation_info : List JObj) (provider_stop_code : Option String) :
    Except Err CombineResult :=
  combineGo provider_stop_code chunks_generation_info 0 0 (.jstr "")

/- ------------------------------------------------------------------
   StreamDecoder: `_stream_response_to_generation_chunk`,
   `_get_invocation_metrics_chunk`, `prepare_output_stream` and
   `aprepare_output_stream`.
   ------------------------------------------------------------------ -/

/-- A `tool_call_chunk`: one partial contribution to a tool call under
construction (index, optional id and name, argument fragment). -/
structure TCChunk where
  index : JVal
  id : JVal
  name : JVal
  args : JVal

/-- A canonical output chunk: either a `GenerationChunk` (text plus a
generation-info map) or an `AIMessageChunk` (content, tool-call chunks and
response metadata).  The content of an `AIMessageChunk` is stored as the
raw JSON value the code assigns to it (a string or a list of blocks). -/
inductive SChunk where
  | gen (text : JVal) (generation_info : JObj)
  | ai (content : JVal) (tool_call_chunks : List TCChunk) (response_metadata : JObj)

/-- `_get_invocation_metrics_chunk`: build the terminal usage chunk from
the embedded `amazon-bedrock-invocationMetrics` of a stream event. -/
def _get_invocation_metrics_chunk (chunk : JVal) : Except Err SChunk := do
  let metrics ← jGetAttr chunk "amazon-bedrock-invocationMetrics"
  if metrics.truthy then do
    let input_tokens ← jGetAttrD metrics "inputTokenCount" (.jint 0)
    let output_tokens ← jGetAttrD metrics "outputTokenCount" (.jint 0)
    let cache_read_input_tokens ← jGetAttrD metrics "cacheReadInputTokenCount" (.jint 0)
    let cache_write_input_tokens ← jGetAttrD metrics "cacheWriteInputTokenCount" (.jint 0)
    let total ← jAdd input_tokens output_tokens
    pure (.gen (.jstr "")
      [("usage_metadata", .jobj
        [("input_tokens", input_tokens),
         ("output_tokens", output_tokens),
         ("total_tokens", total),
         ("input_token_details", .jobj
           [("cache_creation", cache_write_input_tokens),
            ("cache_read", cache_read_input_tokens)])])])
  else
    pure (.gen (.jstr "") [])

/-- The completion-style conversion at the end of
`_stream_response_to_generation_chunk` (the code after the messages
dispatch): extract the provider output field as the chunk text and pass
the remaining fields through as generation info.  Reached both when the
messages protocol is off and, by fall-through, for a messages-protocol
content_block_delta event whose delta type matches no recognized case
(the inner delta chain has no else). -/
def completionChunk (stream_response : JVal) (provider output_key : String) :
    Except Err (Option SChunk) := do
  let fields ← jFields stream_response
  let generation_info := fields.filter fun kv =>
    !(kv.1 == output_key || kv.1 == "prompt_token_count" ||
      kv.1 == "generation_token_count" || kv.1 == "created")
  let base ← jGet stream_response output_key
  let text ←
    if provider == "mistral" || provider == "deepseek" || provider == "writer" then do
      let e ← pyIdx0 base
      jGet e "text"
    else pure base
  pure (some (.gen text generation_info))

/-- `_stream_response_to_generation_chunk`: convert one decoded stream
event into a chunk, or `none` for events that produce no chunk
(message_stop and other unrecognized event types; content_block_start
without a tool_use block).  The messages-protocol branch dispatches on
the event type; a content_block_delta whose delta type is unrecognized
falls through to the completion branch, as in the source. -/
def _stream_response_to_generation_chunk (stream_response : JVal)
    (provider output_key : String) (messages_api coerce_content_to_string : Bool) :
    Except Err (Option SChunk) :=
  if messages_api then do
    let msg_type ← jGetAttr stream_response "type"
    if msg_type.isStr "message_start" then
      pure (some (.ai (if coerce_content_to_string then .jstr "" else .jarr []) [] []))
    else if msg_type.isStr "content_block_start" then do
      let cb ← jGet stream_response "content_block"
      match cb with
      | .jnull => pure none
      | _ => do
        let cbty ← jGet cb "type"
        if cbty.isStr "tool_use" then do
          let idx ← jGet stream_response "index"
          let cb2 := jSetD cb "index" idx
          let cbid ← jGet cb "id"
          let cbname ← jGet cb "name"
          pure (some (.ai (.jarr [cb2]) [⟨idx, cbid, cbname, .jstr ""⟩] []))
        else pure none
    else if msg_type.isStr "content_block_delta" then do
      let delta ← jGet stream_response "delta"
      if !delta.truthy then
        pure (some (.ai (.jstr "") [] []))
      else do
        let dty ← jGet delta "type"
        if dty.isStr "text_delta" then
          if coerce_content_to_string then do
            let tx ← jGet delta "text"
            pure (some (.ai tx [] []))
          else do
            let idx ← jGet stream_response "index"
            let cb2 := jSetD (jSetD delta "index" idx) "type" (.jstr "text")
            pure (some (.ai (.jarr [cb2]) [] []))
        else if dty.isStr "input_json_delta" then do
          let idx ← jGet stream_response "index"
          let cb2 := jSetD (jSetD delta "index" idx) "type" (.jstr "tool_use")
          let pj ← jGet delta "partial_json"
          pure (some (.ai (.jarr [cb2]) [⟨idx, .jnull, .jnull, pj⟩] []))
        else if dty.isStr "thinking_delta" then do
          let idx ← jGet stream_response "index"
          let cb2 := jSetD (jSetD delta "index" idx) "type" (.jstr "thinking")
          pure (some (.ai (.jarr [cb2]) [] []))
        else if dty.isStr "signature_delta" then do
          let idx ← jGet stream_response "index"
          let cb2 := jSetD (jSetD delta "index" idx) "type" (.jstr "thinking")
          pure (some (.ai (.jarr [cb2]) [] []))
        else completionChunk stream_response provider output_key
    else if msg_type.isStr "message_delta" then do
      let delta ← jGet stream_response "delta"
      let sr ← jGetAttr delta "stop_reason"
      let ss ← jGetAttr delta "stop_sequence"
      pure (some (.ai (.jstr "") [] [("stop_reason", sr), ("stop_sequence", ss)]))
    else
      pure none
  else completionChunk stream_response provider output_key

/-- How a decoding run of the stream generator finished. -/
inductive Outcome where
  | exhausted
  | sentinelEnd
  | metricsEnd
  | errored (e : Err)
deriving DecidableEq, Repr

/-- A yielded chunk tagged with provenance: `true` exactly for the
terminal usage chunk yielded by the stop-reason / message_stop termination
branch (the `yield _get_invocation_metrics_chunk(...)` statements). -/
abbrev TChunk := Bool × SChunk

/-- Result of one loop iteration: either terminate the generator with the
given final emissions and outcome, or emit and continue. -/
inductive StepRes where
  | halt (emitted : List TChunk) (out : Outcome)
  | cont (emitted : List TChunk)

def provider_to_output_key_map : List (String × String) :=
  [("anthropic", "completion"), ("amazon", "outputText"), ("cohere", "text"),
   ("deepseek", "choices"), ("meta", "generation"), ("mistral", "outputs"),
   ("writer", "choices")]

def lookupStr : List (String × String) → String → Option String
  | [], _ => none
  | (k, v) :: rest, p => if p == k then some v else lookupStr rest p

/-- The cohere termination test shared by both decoders:
`chunk_obj["is_finished"] or chunk_obj[output_key] == "<EOS_TOKEN>"`. -/
def cohereFinished (obj : JVal) (output_key : String) : Except Err Bool := do
  let fin ← jGet obj "is_finished"
  if fin.truthy then pure true
  else do
    let t ← jGet obj output_key
    pure (t.isStr "<EOS_TOKEN>")

/-- The mistral stop test
`chunk_obj.get(output_key, [dict()])[0].get("stop_reason", "") == "stop"`,
shared by the sync termination chain and the async early return. -/
def mistralStopCheck (obj : JVal) (output_key : String) : Except Err Bool := do
  let base ← jGetAttrD obj output_key (.jarr [.jobj []])
  let opt ← pyIdx0 base
  let sr ← jGetAttrD opt "stop_reason" (.jstr "")
  pure (sr.isStr "stop")

/-- The synchronous decoder's per-provider termination chain, evaluated
after the converted chunk is yielded: deepseek and mistral look inside the
first element of the output field, meta at the top-level stop reason, and
the messages protocol at a `message_stop` event type. -/
def syncTerminalCheck (provider output_key : String) (messages_api : Bool)
    (obj : JVal) : Except Err Bool :=
  if provider == "deepseek" then do
    let base ← jGetAttrD obj output_key (.jarr [.jobj []])
    let opt ← pyIdx0 base
    let sr ← jGetAttrD opt "stop_reason" .jnull
    let fr ← jGetAttrD opt "finish_reason" .jnull
    pure (sr.isStr "stop" || sr.isStr "length" || fr.isStr "eos_token")
  else if provider == "mistral" then
    mistralStopCheck obj output_key
  else if provider == "meta" then do
    let sr ← jGetAttrD obj "stop_reason" (.jstr "")
    pure (sr.isStr "stop")
  else if messages_api then do
    let ty ← jGetAttr obj "type"
    pure (ty.isStr "message_stop")
  else pure false

/-- Convert-and-maybe-terminate part of the synchronous loop body: convert
the event, yield the chunk when one is produced, then run the termination
chain, yielding the terminal invocation-metrics chunk when it fires. -/
def syncStepAfter (provider output_key : String) (messages_api coerce : Bool)
    (obj : JVal) : StepRes :=
  match _stream_response_to_generation_chunk obj provider output_key messages_api coerce with
  | .error e => .halt [] (.errored e)
  | .ok oc =>
      let em : List TChunk := match oc with | some c => [(false, c)] | none => []
      match syncTerminalCheck provider output_key messages_api obj with
      | .error e => .halt em (.errored e)
      | .ok true =>
          match _get_invocation_metrics_chunk obj with
          | .error e => .halt em (.errored e)
          | .ok mc => .halt (em ++ [(true, mc)]) .metricsEnd
      | .ok false => .cont em

/-- One iteration of the synchronous decoding loop: the writer "[DONE]"
sentinel and the cohere finished test run first and terminate without a
chunk; otherwise the event is converted and the termination chain runs. -/
def syncStep (provider output_key : String) (messages_api coerce : Bool)
    (obj : JVal) : StepRes :=
  if provider == "writer" && obj.isStr "[DONE]" then .halt [] .sentinelEnd
  else if provider == "cohere" then
    match cohereFinished obj output_key with
    | .error e => .halt [] (.errored e)
    | .ok true => .halt [] .sentinelEnd
    | .ok false => syncStepAfter provider output_key messages_api coerce obj
  else syncStepAfter provider output_key messages_api coerce obj

def streamGo (provider output_key : String) (messages_api coerce : Bool) :
    List (Option JVal) → List TChunk × Outcome
  | [] => ([], .exhausted)
  | none :: rest => streamGo provider output_key messages_api coerce rest
  | some obj :: rest =>
      match syncStep provider output_key messages_api coerce obj with
      | .halt em out => (em, out)
      | .cont em =>
          let r := streamGo provider output_key messages_api coerce rest
          (em ++ r.1, r.2)

/-- `prepare_output_stream`: the synchronous stream decoder.  The response
body is the already-decoded event stream (`none` models a falsy body;
each event optionally carries a decoded JSON payload, `none` modelling a
falsy or absent chunk that is skipped).  Returns the yielded chunks in
order together with the outcome.  The `stop` parameter is accepted and
ignored, as in the source. -/
def prepare_output_stream (provider : String) (body : Option (List (Option JVal)))
    (stop : Option (List String)) (messages_api coerce_content_to_string : Bool) :
    List TChunk × Outcome :=
  match body with
  | none => ([], .exhausted)
  | some events =>
      let output_key :=
        if messages_api then "message"
        else (lookupStr provider_to_output_key_map provider).getD ""
      if output_key == "" then ([], .errored .unknownProvider)
      else streamGo provider output_key messages_api coerce_content_to_string events

/-- Convert part of the asynchronous loop body (the async decoder has no
termination chain and never yields a terminal usage chunk). -/
def asyncStepConvert (provider output_key : String) (messages_api coerce : Bool)
    (obj : JVal) : StepRes :=
  match _stream_response_to_generation_chunk obj provider output_key messages_api coerce with
  | .error e => .halt [] (.errored e)
  | .ok (some c) => .cont [(false, c)]
  | .ok none => .cont []

/-- One iteration of the asynchronous decoding loop: the cohere finished
test and the mistral stop test run before conversion and terminate without
any chunk; then the event is converted and yielded. -/
def asyncStep (provider output_key : String) (messages_api coerce : Bool)
    (obj : JVal) : StepRes :=
  if provider == "cohere" then
    match cohereFinished obj output_key with
    | .error e => .halt [] (.errored e)
    | .ok true => .halt [] .sentinelEnd
    | .ok false =>
        if provider == "mistral" then
          match mistralStopCheck obj output_key with
          | .error e => .halt [] (.errored e)
          | .ok true => .halt [] .sentinelEnd
          | .ok false => asyncStepConvert provider output_key messages_api coerce obj
        else asyncStepConvert provider output_key messages_api coerce obj
  else
    if provider == "mistral" then
      match mistralStopCheck obj output_key with
      | .error e => .halt [] (.errored e)
      | .ok true => .halt [] .sentinelEnd
      | .ok false => asyncStepConvert provider output_key messages_api coerce obj
    else asyncStepConvert provider output_key messages_api coerce obj

def astreamGo (provider output_key : String) (messages_api coerce : Bool) :
    List (Option JVal) → List TChunk × Outcome
  | [] => ([], .exhausted)
  | none :: rest => astreamGo provider output_key messages_api coerce rest
  | some obj :: rest =>
      match asyncStep provider output_key messages_api coerce obj with
      | .halt em out => (em, out)
      | .cont em =>
          let r := astreamGo provider output_key messages_api coerce rest
          (em ++ r.1, r.2)

/-- `aprepare_output_stream`: the asynchronous stream decoder.  Unlike the
synchronous one it always resolves the output key from the provider map
(also under the messages protocol), has no writer "[DONE]" sentinel, no
deepseek / meta / message_stop termination, and stops on the mistral stop
reason before converting the event, yielding no terminal usage chunk. -/
def aprepare_output_stream (provider : String) (body : Option (List (Option JVal)))
    (stop : Option (List String)) (messages_api coerce_content_to_string : Bool) :
    List TChunk × Outcome :=
  match body with
  | none => ([], .exhausted)
  | some events =>
      match lookupStr provider_to_output_key_map provider with
      | none => ([], .errored .unknownProvider)
      | some output_key =>
          astreamGo provider output_key messages_api coerce_content_to_string events

/- ------------------------------------------------------------------
   RequestBuilder: `prepare_input` and the thinking-block reorder.
   ------------------------------------------------------------------ -/

/-- Modelled from the spec: the helper `thinking_in_params` lives in
`langchain_aws.utils`, which is not part of the source under
verification.  Per the spec, "thinking mode" is active when the model
parameters carry a thinking configuration whose type is enabled. -/
def thinking_in_params (params : JObj) : Bool :=
  match assocFind params "thinking" with
  | some (.jobj fs) =>
      match assocFind fs "type" with
      | some v => v.isStr "enabled"
      | none => false
  | _ => false

def isThinkingType (v : JVal) : Bool :=
  v.isStr "thinking" || v.isStr "redacted_thinking"

/-- The thinking / redacted_thinking blocks of an assistant content list
(dict blocks only), in order. -/
def thinkingBlocksOf (content : List JVal) : List JVal :=
  content.filter fun b =>
    match b with
    | .jobj fs => isThinkingType ((assocFind fs "type").getD .jnull)
    | _ => false

/-- The dict blocks of a content list that are not thinking blocks, in
order (non-dict blocks are dropped, as in the list comprehension). -/
def nonThinkingDictBlocksOf (content : List JVal) : List JVal :=
  content.filter fun b =>
    match b with
    | .jobj fs => !isThinkingType ((assocFind fs "type").getD .jnull)
    | _ => false

/-- `any(item.get("type") == "tool_result" for item in blocks if
isinstance(item, dict))`. -/
def hasToolResult (blocks : List JVal) : Bool :=
  blocks.any fun b =>
    match b with
    | .jobj fs => ((assocFind fs "type").getD .jnull).isStr "tool_result"
    | _ => false

def listGetIdx {α : Type} : List α → Nat → Option α
  | [], _ => none
  | x :: _, 0 => some x
  | _ :: xs, n + 1 => listGetIdx xs n

def listSetIdx {α : Type} : List α → Nat → α → List α
  | [], _, _ => []
  | _ :: xs, 0, v => v :: xs
  | x :: xs, n + 1, v => x :: listSetIdx xs n v

/-- The special handling for tool results with thinking inside
`prepare_input`: when the last message is a user turn whose content list
contains a tool_result block and the second-to-last is an assistant turn
whose content list has thinking blocks that are not already first, the
assistant content is rewritten in place (thinking blocks first, then the
remaining dict blocks).  Returns the final state of the messages list. -/
def reorderThinkingMessages (messages : List JVal) : Except Err (List JVal) :=
  if messages.length ≥ 2 then
    match listGetIdx messages (messages.length - 1),
          listGetIdx messages (messages.length - 2) with
    | some lastMsg, some asstMsg => do
        let lastRole ← jGet lastMsg "role"
        if lastRole.isStr "user" then do
          let asstRole ← jGet asstMsg "role"
          if asstRole.isStr "assistant" then do
            let last_user_msg ← jGetAttrD lastMsg "content" (.jarr [])
            let tool_result :=
              match last_user_msg with
              | .jarr items => hasToolResult items
              | _ => false
            if tool_result then do
              let asst_content ← jGetAttrD asstMsg "content" (.jarr [])
              match asst_content with
              | .jarr ablocks =>
                  if !ablocks.isEmpty then
                    let thinking_blocks := thinkingBlocksOf ablocks
                    if !thinking_blocks.isEmpty then
                      match ablocks with
                      | [] => pure messages
                      | b0 :: _ => do
                          let ty0 ← jGetAttrD b0 "type" .jnull
                          if !isThinkingType ty0 then
                            let new_content :=
                              thinking_blocks ++ nonThinkingDictBlocksOf ablocks
                            pure (listSetIdx messages (messages.length - 2)
                              (jSetD asstMsg "content" (.jarr new_content)))
                          else pure messages
                    else pure messages
                  else pure messages
              | _ => pure messages
            else pure messages
          else pure messages
        else pure messages
    | _, _ => pure messages
  else pure messages

def optStrTruthy : Option String → Bool
  | some s => s != ""
  | none => false

def optIntTruthy : Option Int → Bool
  | some n => n != 0
  | none => false

def optListTruthy {α : Type} : Option (List α) → Bool
  | some l => !l.isEmpty
  | none => false

def jOfOptStr : Option String → JVal
  | some s => .jstr s
  | none => .jnull

/-- The request body built by `prepare_input` together with the final
state of the caller-supplied messages list (which the anthropic messages
path may mutate in place). -/
structure PrepareInputResult where
  body : JObj
  messagesOut : Option (List JVal)

/-- `prepare_input`: build the provider-specific request body from the
canonical generation inputs. -/
def prepare_input (provider : String) (model_kwargs : JObj)
    (prompt : Option String) (system : Option String)
    (messages : Option (List JVal)) (tools : Option (List JVal))
    (max_tokens : Option Int) (temperature : Option JVal) :
    Except Err PrepareInputResult := do
  let input_body := model_kwargs
  if provider == "anthropic" then do
    let st ←
      match messages with
      | some msgs =>
          if !msgs.isEmpty then do
            let thinking_enabled := thinking_in_params model_kwargs
            let b1 :=
              if optListTruthy tools then
                assocSet input_body "tools" (.jarr (tools.getD []))
              else input_body
            let b2 := assocSet b1 "anthropic_version" (.jstr "bedrock-2023-05-31")
            let msgs2 ←
              if thinking_enabled then reorderThinkingMessages msgs else pure msgs
            let b3 := assocSet b2 "messages" (.jarr msgs2)
            let b4 :=
              if optStrTruthy system then assocSet b3 "system" (jOfOptStr system)
              else b3
            let b5 :=
              if optIntTruthy max_tokens then
                assocSet b4 "max_tokens" (.jint (max_tokens.getD 0))
              else if (assocFind b4 "max_tokens").isNone then
                assocSet b4 "max_tokens" (.jint 1024)
              else b4
            pure (b5, some msgs2)
          else pure (input_body, messages)
      | none => pure (input_body, (none : Option (List JVal)))
    let b6 :=
      if optStrTruthy prompt then
        let b := assocSet st.1 "prompt" (.jstr (_human_assistant_format (prompt.getD "")).1)
        if optIntTruthy max_tokens then
          assocSet b "max_tokens_to_sample" (.jint (max_tokens.getD 0))
        else if (assocFind b "max_tokens_to_sample").isNone then
          assocSet b "max_tokens_to_sample" (.jint 1024)
        else b
      else st.1
    let b7 :=
      match temperature with
      | some t => assocSet b6 "temperature" t
      | none => b6
    pure ⟨b7, st.2⟩
  else if provider == "ai21" || provider == "cohere" || provider == "meta" ||
          provider == "mistral" || provider == "deepseek" || provider == "writer" then do
    let b1 := assocSet input_body "prompt" (jOfOptStr prompt)
    let b2 :=
      if optIntTruthy max_tokens then
        if provider == "cohere" then
          assocSet b1 "max_tokens" (.jint (max_tokens.getD 0))
        else if provider == "meta" then
          assocSet b1 "max_gen_len" (.jint (max_tokens.getD 0))
        else if provider == "mistral" then
          assocSet b1 "max_tokens" (.jint (max_tokens.getD 0))
        else if provider == "deepseek" then
          assocSet b1 "max_tokens" (.jint (max_tokens.getD 0))
        else if provider == "writer" then
          assocSet b1 "max_tokens" (.jint (max_tokens.getD 0))
        else b1
      else b1
    let b3 :=
      match temperature with
      | some t => assocSet b2 "temperature" t
      | none => b2
    pure ⟨b3, messages⟩
  else if provider == "amazon" then do
    let config := model_kwargs
    let config2 :=
      if optIntTruthy max_tokens then
        assocSet config "maxTokenCount" (.jint (max_tokens.getD 0))
      else config
    let config3 :=
      match temperature with
      | some t => assocSet config2 "temperature" t
      | none => config2
    pure ⟨[("inputText", jOfOptStr prompt), ("textGenerationConfig", .jobj config3)],
          messages⟩
  else
    pure ⟨assocSet input_body "inputText" (jOfOptStr prompt), messages⟩

/- ------------------------------------------------------------------
   ResponseParser: `extract_tool_calls` and `prepare_output`.
   ------------------------------------------------------------------ -/

/-- One extracted tool call (name, structured arguments, id). -/
structure ToolCallT where
  name : JVal
  args : JVal
  id : JVal

/-- `extract_tool_calls`: every content block of type tool_use becomes one
tool call, in order. -/
def extract_tool_calls : List JVal → Except Err (List ToolCallT)
  | [] => .ok []
  | block :: rest => do
      let ty ← jGet block "type"
      if !ty.isStr "tool_use" then
        extract_tool_calls rest
      else do
        let nm ← jGet block "name"
        let inp ← jGet block "input"
        let bid ← jGet block "id"
        let tl ← extract_tool_calls rest
        pure (⟨nm, inp, bid⟩ :: tl)

/-- Python iteration `for block in v`: lists yield their elements, strings
their characters, dicts their keys; other values are not iterable. -/
def jIterList : JVal → Except Err (List JVal)
  | .jarr xs => .ok xs
  | .jstr s => .ok (s.data.map fun c => .jstr (String.mk [c]))
  | .jobj fs => .ok (fs.map fun kv => .jstr kv.1)
  | _ => .error .typeError

/-- The text blocks of an anthropic content list:
`[block["text"] for block in content if block.get("type") == "text"]`. -/
def textBlocksOf : List JVal → Except Err (List JVal)
  | [] => .ok []
  | b :: rest => do
      let ty ← jGetAttr b "type"
      if ty.isStr "text" then do
        let tx ← jGet b "text"
        let tl ← textBlocksOf rest
        pure (tx :: tl)
      else textBlocksOf rest

/-- `"".join(parts)`: all parts must be strings. -/
def joinStrs : List JVal → Except Err String
  | [] => .ok ""
  | .jstr s :: rest => do pure (s ++ (← joinStrs rest))
  | _ => .error .typeError

/-- `[block for block in content if block.get("type") == "thinking"]`. -/
def thinkingTypedBlocksOf : List JVal → Except Err (List JVal)
  | [] => .ok []
  | b :: rest => do
      let ty ← jGetAttr b "type"
      let tl ← thinkingTypedBlocksOf rest
      if ty.isStr "thinking" then pure (b :: tl) else pure tl

/-- `any(block.get("type") == "tool_use" for block in content)`. -/
def anyToolUse : List JVal → Except Err Bool
  | [] => .ok false
  | b :: rest => do
      let ty ← jGetAttr b "type"
      if ty.isStr "tool_use" then pure true else anyToolUse rest

/-- A complete invocation response: the JSON-decoded body and the HTTP
headers found under ResponseMetadata. -/
structure BedrockResponse where
  body : JVal
  httpHeaders : JObj

/-- The canonical usage record built by `prepare_output` from the four
token-count transport headers. -/
structure UsageT where
  prompt_tokens : Int
  completion_tokens : Int
  cache_read_input_tokens : Int
  cache_write_input_tokens : Int
  total_tokens : Int

/-- The canonical result returned by `prepare_output`. -/
structure PrepareOutputResult where
  text : JVal
  thinking : JObj
  tool_calls : List ToolCallT
  body : JVal
  usage : UsageT
  stop_reason : JVal

/-- The text / thinking / tool-call extraction part of `prepare_output`. -/
def extractTextThinkingTools (provider : String) (response_body : JVal) :
    Except Err (JVal × JObj × List ToolCallT) :=
  if provider == "anthropic" then do
    let hasCompletion ← jHasKey response_body "completion"
    if hasCompletion then do
      let t ← jGetAttr response_body "completion"
      pure (t, [], [])
    else do
      let hasContent ← jHasKey response_body "content"
      if hasContent then do
        let content ← jGetAttrD response_body "content" (.jarr [])
        let blocks ← jIterList content
        let text_blocks ← textBlocksOf blocks
        let text ←
          if !text_blocks.isEmpty then do
            let j ← joinStrs text_blocks
            pure (JVal.jstr j)
          else pure (JVal.jstr "")
        let thinking_blocks ← thinkingTypedBlocksOf blocks
        let thinking ←
          match thinking_blocks with
          | tb :: _ => do
              let tx ← jGetAttrD tb "thinking" (.jstr "")
              let sg ← jGetAttrD tb "signature" (.jstr "")
              pure [("text", tx), ("signature", sg)]
          | [] => pure ([] : JObj)
        let anyTU ← anyToolUse blocks
        let tool_calls ← if anyTU then extract_tool_calls blocks else pure []
        pure (text, thinking, tool_calls)
      else pure (.jstr "", [], [])
  else if provider == "deepseek" || provider == "writer" then do
    let cs ← jGetAttr response_body "choices"
    let c0 ← pyIdx0 cs
    let t ← jGetAttr c0 "text"
    pure (t, [], [])
  else if provider == "ai21" then do
    let cs ← jGetAttr response_body "completions"
    let c0 ← pyIdx0 cs
    let d ← jGetAttr c0 "data"
    let t ← jGetAttr d "text"
    pure (t, [], [])
  else if provider == "cohere" then do
    let gs ← jGetAttr response_body "generations"
    let g0 ← pyIdx0 gs
    let t ← jGetAttr g0 "text"
    pure (t, [], [])
  else if provider == "meta" then do
    let t ← jGetAttr response_body "generation"
    pure (t, [], [])
  else if provider == "mistral" then do
    let os ← jGetAttr response_body "outputs"
    let o0 ← pyIdx0 os
    let t ← jGetAttr o0 "text"
    pure (t, [], [])
  else do
    let rs ← jGetAttr response_body "results"
    let r0 ← pyIdx0 rs
    let t ← jGetAttr r0 "outputText"
    pure (t, [], [])

/-- The usage part of `prepare_output`: read the four token-count headers
(defaulting each to 0 when absent), convert with `int(...)`, and total
them as prompt + cache read + completion. -/
def computeUsage (headers : JObj) : Except Err UsageT := do
  let prompt_tokens ← jToIntPy ((assocFind headers "x-amzn-bedrock-input-token-count").getD (.jint 0))
  let completion_tokens ← jToIntPy ((assocFind headers "x-amzn-bedrock-output-token-count").getD (.jint 0))
  let cache_read_input_tokens ← jToIntPy ((assocFind headers "x-amzn-bedrock-cache-read-input-token-count").getD (.jint 0))
  let cache_write_input_tokens ← jToIntPy ((assocFind headers "x-amzn-bedrock-cache-write-input-token-count").getD (.jint 0))
  pure ⟨prompt_tokens, completion_tokens, cache_read_input_tokens,
        cache_write_input_tokens,
        prompt_tokens + cache_read_input_tokens + completion_tokens⟩

/-- `prepare_output`: parse one complete provider response into the
canonical result. -/
def prepare_output (provider : String) (response : BedrockResponse) :
    Except Err PrepareOutputResult := do
  let ttt ← extractTextThinkingTools provider response.body
  let usage ← computeUsage response.httpHeaders
  let sr ← jGetAttr response.body "stop_reason"
  pure ⟨ttt.1, ttt.2.1, ttt.2.2, response.body, usage, sr⟩

/- ------------------------------------------------------------------
   Specification-side functions and concrete fixtures used by the
   theorems below.
   ------------------------------------------------------------------ -/

/-- Specification of the aggregated stop reason: the value of the last
chunk metadata map in which the stop-reason field is present at all
(empty string when it never appears). -/
def lastPresentStop (chunks : List JObj) (code : Option String) : JVal :=
  chunks.foldl (stopUpdate code) (.jstr "")

/-- Tag invariant for a decoding step result: the chunks emitted by one
loop iteration are untagged (not terminal) except that a metricsEnd halt
ends with exactly one terminal-tagged chunk. -/
def tagsOkStep : StepRes → Prop
  | .halt em .metricsEnd => ∃ n, em.map Prod.fst = List.replicate n false ++ [true]
  | .halt em _ => ∃ n, em.map Prod.fst = List.replicate n false
  | .cont em => ∃ n, em.map Prod.fst = List.replicate n false

/-- Tag invariant for a full decoding run: when the run ended through the
stop-reason / message_stop termination branch (metricsEnd), the chunk
sequence is some non-terminal chunks followed by exactly one terminal
usage chunk, in final position; in every other outcome (exhaustion,
sentinel termination, error) no terminal usage chunk is emitted at all. -/
def tagsOkRes : List TChunk × Outcome → Prop
  | (cs, .metricsEnd) => ∃ n, cs.map Prod.fst = List.replicate n false ++ [true]
  | (cs, _) => ∃ n, cs.map Prod.fst = List.replicate n false

/-- An assistant message with the given content blocks. -/
def mkAsst (content : List JVal) : JVal :=
  .jobj [("role", .jstr "assistant"), ("content", .jarr content)]

/-- A user message with the given content blocks. -/
def mkUser (content : List JVal) : JVal :=
  .jobj [("role", .jstr "user"), ("content", .jarr content)]

/-- The type tags of the content blocks of a message, as plain strings
(used to compare a message before and after a call). -/
def contentTypeTags (m : JVal) : List String :=
  match m with
  | .jobj fs =>
      match assocFind fs "content" with
      | some (.jarr bs) =>
          bs.map fun b =>
            match b with
            | .jobj bf => match assocFind bf "type" with | some (.jstr t) => t | _ => ""
            | _ => ""
      | _ => []
  | _ => []

/-- Content type tags of a returned messages list (projection used to
tell two `prepare_input` results apart). -/
def msgTagsOf (x : Except Err (Option (List JVal))) : List (List String) :=
  match x with
  | .ok (some ms) => ms.map contentTypeTags
  | _ => []

/-- The stop reason of an aggregation result as a plain string (projection
used to tell two aggregation results apart). -/
def stopReasonString (x : Except Err JVal) : String :=
  match x with
  | .ok (.jstr s) => s
  | _ => "<none>"

/-- Model kwargs with extended thinking enabled. -/
def kwT : JObj := [("thinking", .jobj [("type", .jstr "enabled")])]

def textB : JVal := .jobj [("type", .jstr "text"), ("text", .jstr "hi")]

def thinkB : JVal :=
  .jobj [("type", .jstr "thinking"), ("thinking", .jstr "hmm"), ("signature", .jstr "sig")]

/-- Assistant turn whose content is `[text, thinking]`. -/
def asstM : JVal := mkAsst [textB, thinkB]

/-- The same assistant turn after the reorder: content `[thinking, text]`. -/
def asstM2 : JVal := mkAsst [thinkB, textB]

def trB : JVal :=
  .jobj [("type", .jstr "tool_result"), ("tool_use_id", .jstr "t1"), ("content", .jstr "42")]

/-- User turn containing a tool_result block. -/
def userM : JVal := mkUser [trB]

/-- A meta stream event carrying text and the stop reason "stop". -/
def metaStop : JVal := .jobj [("generation", .jstr "hi"), ("stop_reason", .jstr "stop")]

/-- An anthropic legacy-completion stream event. -/
def anthCompObj : JVal := .jobj [("completion", .jstr "hi")]

/-- A complete anthropic response with token-count headers. -/
def respC8 : BedrockResponse :=
  ⟨.jobj [("completion", .jstr "ok"), ("stop_reason", .jstr "end_turn")],
   [("x-amzn-bedrock-input-token-count", .jstr "7"),
    ("x-amzn-bedrock-output-token-count", .jint 3)]⟩

/-- The parsed result of `respC8`. -/
def outC8 : PrepareOutputResult :=
  ⟨.jstr "ok", [], [], .jobj [("completion", .jstr "ok"), ("stop_reason", .jstr "end_turn")],
   ⟨7, 3, 0, 0, 10⟩, .jstr "end_turn"⟩

/- ==================================================================
   Theorems.
   ================================================================== -/

/-- Inversion for a successful `Except` bind. -/
theorem except_bind_ok_elim {α β : Type} {x : Except Err α} {f : α → Except Err β}
    {b : β} (h : x >>= f = .ok b) : ∃ a, x = .ok a ∧ f a = .ok b := by
  cases x with
  | error e => exact absurd h (by simp [Bind.bind, Except.bind])
  | ok a => exact ⟨a, rfl, h⟩

/-- The usage totals produced by the aggregation loop always satisfy
total = prompt + completion. -/
theorem combineGo_total (code : Option String) (l : List JObj) :
    ∀ (p c : Int) (sr : JVal) (r : CombineResult),
      combineGo code l p c sr = .ok r →
      r.total_tokens = r.prompt_tokens + r.completion_tokens := by
  induction l with
  | nil =>
      intro p c sr r h
      simp only [combineGo] at h
      injection h with h
      subst h
      rfl
  | cons gi rest ih =>
      intro p c sr r h
      simp only [combineGo] at h
      obtain ⟨pc, _, h2⟩ := except_bind_ok_elim h
      exact ih pc.1 pc.2 _ r h2

/-- The stop reason produced by the aggregation loop is the fold of
"last present value wins" over the chunk list. -/
theorem combineGo_stop (code : Option String) (l : List JObj) :
    ∀ (p c : Int) (sr : JVal) (r : CombineResult),
      combineGo code l p c sr = .ok r →
      r.stop_reason = l.foldl (stopUpdate code) sr := by
  induction l with
  | nil =>
      intro p c sr r h
      simp only [combineGo] at h
      injection h with h
      subst h
      rfl
  | cons gi rest ih =>
      intro p c sr r h
      simp only [combineGo] at h
      obtain ⟨pc, _, h2⟩ := except_bind_ok_elim h
      rw [List.foldl_cons]
      exact ih pc.1 pc.2 (stopUpdate code sr gi) r h2

/-- C6: the alternation formatter applied to "Hello" returns exactly the
prompt with a leading human marker (two newlines, marker, space) and a
trailing assistant marker, and emits no warning. -/
theorem c6_hello_format :
    _human_assistant_format "Hello" = ("\n\nHuman: Hello\n\nAssistant:", 0) := by
  rfl

/-- C7: on the anthropic messages path with thinking enabled, an
assistant turn with content `[text, thinking]` followed by a user turn
containing a tool_result is rewritten to `[thinking, text]`, with no
block added, removed or duplicated (the full request body is as shown). -/
theorem c7_thinking_reorder_concrete :
    prepare_input "anthropic" kwT none none (some [asstM, userM]) none none none
      = .ok ⟨[("thinking", .jobj [("type", .jstr "enabled")]),
              ("anthropic_version", .jstr "bedrock-2023-05-31"),
              ("messages", .jarr [asstM2, userM]),
              ("max_tokens", .jint 1024)],
             some [asstM2, userM]⟩ := by
  rfl

/-- C2 counterexample: `prepare_input` does not fail for an unknown
provider id; it returns a fallback body holding the prompt under
inputText (the claim asserts a configuration error is raised). -/
theorem c2_counterexample :
    prepare_input "qwerty" [] (some "hi") none none none none none
      = .ok ⟨[("inputText", .jstr "hi")], none⟩ := by
  rfl

/-- C1 counterexample: for provider meta and a single event carrying stop
reason "stop", the synchronous decoder yields two chunks (the converted
chunk plus the terminal usage chunk) while the asynchronous decoder
yields only one and does not terminate, so the two decoders do not agree
on the same input. -/
theorem c1_counterexample :
    (prepare_output_stream "meta" (some [some metaStop]) none false false).1.length = 2
    ∧ (aprepare_output_stream "meta" (some [some metaStop]) none false false).1.length = 1
    ∧ prepare_output_stream "meta" (some [some metaStop]) none false false
        ≠ aprepare_output_stream "meta" (some [some metaStop]) none false false := by
  refine ⟨rfl, rfl, fun h => ?_⟩
  exact absurd (congrArg (fun r => r.1.length) h) (by decide)

/-- C5 counterexample: with metadata chunks carrying stop reasons "stop"
then "" under the stop-reason field, the aggregator returns the empty
string, not "stop": the last present value wins even when it is empty,
contradicting "last non-empty value wins". -/
theorem c5_counterexample :
    ((_combine_generation_info_for_llm_result
        [[("stop_reason", .jstr "stop")], [("stop_reason", .jstr "")]]
        (some "stop_reason")).map fun r => r.stop_reason)
      = .ok (.jstr "")
    ∧ ((_combine_generation_info_for_llm_result
        [[("stop_reason", .jstr "stop")], [("stop_reason", .jstr "")]]
        (some "stop_reason")).map fun r => r.stop_reason)
      ≠ .ok (.jstr "stop") := by
  refine ⟨rfl, fun h => ?_⟩
  exact absurd (congrArg stopReasonString h) (by decide)

/-- C5 (amended): the stop reason returned by the usage aggregator is the
value under the stop-reason field of the last chunk in which that field
is present at all — later occurrences override earlier ones even when
the later value is empty — and the empty string when the field never
appears. -/
theorem c5_last_present_stop_reason_amended (chunks : List JObj)
    (code : Option String) (r : CombineResult)
    (h : _combine_generation_info_for_llm_result chunks code = .ok r) :
    r.stop_reason = lastPresentStop chunks code := by
  unfold lastPresentStop
  exact combineGo_stop code chunks 0 0 (.jstr "") r h

/-- Witness for C5: the amended theorem applied to one concrete chunk. -/
theorem c5_witness :
    (⟨0, 0, 0, .jstr "a"⟩ : CombineResult).stop_reason
      = lastPresentStop [[("stop_reason", .jstr "a")]] (some "stop_reason") :=
  c5_last_present_stop_reason_amended [[("stop_reason", .jstr "a")]]
    (some "stop_reason") ⟨0, 0, 0, .jstr "a"⟩ rfl

/-- C9: aggregating metadata chunks with token counts 10/5 and 0/3 yields
prompt 10, completion 8, total 18; and every successful aggregation
satisfies total = prompt + completion. -/
theorem c9_usage_aggregation :
    (_combine_generation_info_for_llm_result
        [[("amazon-bedrock-invocationMetrics",
           .jobj [("inputTokenCount", .jint 10), ("outputTokenCount", .jint 5)])],
         [("amazon-bedrock-invocationMetrics",
           .jobj [("inputTokenCount", .jint 0), ("outputTokenCount", .jint 3)])]]
        (some "stop_reason")
      = .ok ⟨10, 8, 18, .jstr ""⟩)
    ∧ ∀ (chunks : List JObj) (code : Option String) (r : CombineResult),
        _combine_generation_info_for_llm_result chunks code = .ok r →
        r.total_tokens = r.prompt_tokens + r.completion_tokens := by
  refine ⟨rfl, fun chunks code r h => ?_⟩
  exact combineGo_total code chunks 0 0 (.jstr "") r h

/-- Witness for C9: the total invariant applied to one concrete chunk. -/
theorem c9_witness :
    (⟨5, 6, 11, .jstr ""⟩ : CombineResult).total_tokens
      = (⟨5, 6, 11, .jstr ""⟩ : CombineResult).prompt_tokens
        + (⟨5, 6, 11, .jstr ""⟩ : CombineResult).completion_tokens :=
  c9_usage_aggregation.2
    [[("amazon-bedrock-invocationMetrics",
       .jobj [("inputTokenCount", .jint 5), ("outputTokenCount", .jint 6)])]]
    none ⟨5, 6, 11, .jstr ""⟩ rfl

theorem except_bind_ok_red {α β : Type} (a : α) (f : α → Except Err β) :
    (Except.ok a >>= f) = f a := rfl

theorem except_bind_error_red {α β : Type} (e : Err) (f : α → Except Err β) :
    ((Except.error e : Except Err α) >>= f) = .error e := rfl

theorem except_pure_red {α : Type} (a : α) :
    (pure a : Except Err α) = .ok a := rfl

/-- C10: the "usage" branch of the aggregator is total only for
array-valued token counts: a scalar integer under input_tokens (or under
output_tokens with input_tokens absent) makes the aggregation fail with a
TypeError, while scalar counts under amazon-bedrock-invocationMetrics are
added directly. -/
theorem c10_scalar_usage_type_error :
    (∀ (m u : JObj) (n : Int) (rest : List JObj) (code : Option String),
        assocFind m "usage" = some (.jobj u) →
        assocFind u "input_tokens" = some (.jint n) →
        _combine_generation_info_for_llm_result (m :: rest) code = .error .typeError)
    ∧ (∀ (m u : JObj) (n : Int) (rest : List JObj) (code : Option String),
        assocFind m "usage" = some (.jobj u) →
        assocFind u "input_tokens" = none →
        assocFind u "output_tokens" = some (.jint n) →
        _combine_generation_info_for_llm_result (m :: rest) code = .error .typeError)
    ∧ (∀ (a b : Int),
        _combine_generation_info_for_llm_result
          [[("amazon-bedrock-invocationMetrics",
             .jobj [("inputTokenCount", .jint a), ("outputTokenCount", .jint b)])]]
          none = .ok ⟨a, b, a + b, .jstr ""⟩) := by
  refine ⟨?_, ?_, ?_⟩
  · intro m u n rest code h1 h2
    have hstep : combineStepUsage m 0 0 = .error .typeError := by
      unfold combineStepUsage
      rw [h1]
      simp [jHasKey, h2, jGet, jSum, except_bind_ok_red, except_bind_error_red]
    unfold _combine_generation_info_for_llm_result combineGo
    rw [hstep]
    rfl
  · intro m u n rest code h1 h2 h3
    have hstep : combineStepUsage m 0 0 = .error .typeError := by
      unfold combineStepUsage
      rw [h1]
      simp [jHasKey, h2, h3, jGet, jSum, except_bind_ok_red, except_bind_error_red]
    unfold _combine_generation_info_for_llm_result combineGo
    rw [hstep]
    rfl
  · intro a b
    have h : _combine_generation_info_for_llm_result
        [[("amazon-bedrock-invocationMetrics",
           .jobj [("inputTokenCount", .jint a), ("outputTokenCount", .jint b)])]]
        none = .ok ⟨0 + a, 0 + b, 0 + a + (0 + b), .jstr ""⟩ := rfl
    simpa using h

/-- Witness for C10: a concrete scalar usage map makes the aggregator
fail, and a concrete invocation-metrics map is added directly. -/
theorem c10_witness :
    _combine_generation_info_for_llm_result
        [[("usage", .jobj [("input_tokens", .jint 7)])]] none = .error .typeError :=
  c10_scalar_usage_type_error.1 [("usage", .jobj [("input_tokens", .jint 7)])]
    [("input_tokens", .jint 7)] 7 [] none rfl rfl

/-- C2 (amended): a provider id outside the known output-key map makes
the synchronous stream decoder fail immediately with the
unknown-provider error, before any event is consumed (the result does
not depend on the events and no chunk is emitted); the request builder,
however, does not validate the provider id (see the counterexample). -/
theorem c2_unknown_provider_stream_amended (provider : String)
    (hp : provider ∉ (["anthropic", "amazon", "cohere", "deepseek",
                       "meta", "mistral", "writer"] : List String))
    (events : List (Option JVal)) (stop : Option (List String)) (coerce : Bool) :
    prepare_output_stream provider (some events) stop false coerce
      = ([], .errored .unknownProvider) := by
  simp only [List.mem_cons, List.not_mem_nil, or_false, not_or] at hp
  obtain ⟨h1, h2, h3, h4, h5, h6, h7⟩ := hp
  have hl : lookupStr provider_to_output_key_map provider = none := by
    simp [lookupStr, provider_to_output_key_map, h1, h2, h3, h4, h5, h6, h7]
  unfold prepare_output_stream
  simp [hl]

/-- Witness for C2: the amended theorem at a concrete unknown provider and
a concrete nonempty event stream. -/
theorem c2_witness :
    prepare_output_stream "zzz" (some [some metaStop]) none false false
      = ([], .errored .unknownProvider) :=
  c2_unknown_provider_stream_amended "zzz" (by decide) [some metaStop] none false

/-- C3 counterexample: at a concrete thinking-enabled input the reorder
fires and the messages list coming out of `prepare_input` (modelling the
final state of the caller-supplied list) is not the input list: the
second-to-last message now carries `[thinking, text]` where the caller
passed `[text, thinking]`, so the transformation is not pure. -/
theorem c3_counterexample :
    ((prepare_input "anthropic" kwT none none (some [asstM, userM]) none none none).map
        fun r => (r.messagesOut.getD []).map contentTypeTags)
      = .ok [["thinking", "text"], ["tool_result"]]
    ∧ [asstM, userM].map contentTypeTags = [["text", "thinking"], ["tool_result"]]
    ∧ ((prepare_input "anthropic" kwT none none (some [asstM, userM]) none none none).map
        fun r => r.messagesOut)
      ≠ .ok (some [asstM, userM]) := by
  refine ⟨rfl, rfl, fun h => ?_⟩
  exact absurd (congrArg msgTagsOf h) (by decide)

theorem listGetIdx_append2_left (pre : List JVal) (a u : JVal) :
    listGetIdx (pre ++ [a, u]) pre.length = some a := by
  induction pre with
  | nil => rfl
  | cons p ps ih => simpa [listGetIdx] using ih

theorem listGetIdx_append2_right (pre : List JVal) (a u : JVal) :
    listGetIdx (pre ++ [a, u]) (pre.length + 1) = some u := by
  induction pre with
  | nil => rfl
  | cons p ps ih => simpa [listGetIdx] using ih

theorem listSetIdx_append2_left (pre : List JVal) (a u x : JVal) :
    listSetIdx (pre ++ [a, u]) pre.length x = pre ++ [x, u] := by
  induction pre with
  | nil => rfl
  | cons p ps ih => simp [listSetIdx, ih]

theorem assocFind_assocSet_eq (m : JObj) (k : String) (v : JVal) :
    assocFind (assocSet m k v) k = some v := by
  induction m with
  | nil => simp [assocSet, assocFind]
  | cons kv rest ih =>
      obtain ⟨k1, w⟩ := kv
      by_cases h : (k1 == k) = true
      · simp [assocSet, assocFind, h]
      · simp only [assocSet, assocFind, h, Bool.false_eq_true, if_false]
        simp [assocFind, h, ih]

theorem assocFind_assocSet_ne (m : JObj) (k2 k : String) (v : JVal)
    (hne : (k2 == k) = false) :
    assocFind (assocSet m k2 v) k = assocFind m k := by
  induction m with
  | nil => simp [assocSet, assocFind, hne]
  | cons kv rest ih =>
      obtain ⟨k1, w⟩ := kv
      by_cases h : (k1 == k2) = true
      · have h1 : k1 = k2 := by simpa using h
        simp [assocSet, assocFind, h, h1, hne]
      · simp only [assocSet, assocFind, h, Bool.false_eq_true, if_false]
        by_cases h2 : (k1 == k) = true
        · simp [assocFind, h2]
        · simp [assocFind, h2, ih]

/-- The reorder on a messages list ending in an assistant turn (with
thinking blocks present but not first) followed by a tool_result user
turn: the second-to-last message is replaced, in place, by the assistant
turn with thinking blocks first. -/
theorem reorder_append2 (pre : List JVal) (ablocks ublocks : List JVal)
    (b0f : JObj) (abrest : List JVal)
    (hab : ablocks = .jobj b0f :: abrest)
    (hth : (thinkingBlocksOf ablocks).isEmpty = false)
    (hfirst : isThinkingType ((assocFind b0f "type").getD .jnull) = false)
    (htr : hasToolResult ublocks = true) :
    reorderThinkingMessages (pre ++ [mkAsst ablocks, mkUser ublocks])
      = .ok (pre ++ [mkAsst (thinkingBlocksOf ablocks ++ nonThinkingDictBlocksOf ablocks),
                     mkUser ublocks]) := by
  subst hab
  have hlen : (pre ++ [mkAsst (JVal.jobj b0f :: abrest), mkUser ublocks]).length
      = pre.length + 2 := by
    simp
  unfold reorderThinkingMessages
  rw [hlen]
  rw [if_pos (by omega)]
  have e1 : pre.length + 2 - 1 = pre.length + 1 := rfl
  have e2 : pre.length + 2 - 2 = pre.length := rfl
  rw [e1, e2, listGetIdx_append2_right, listGetIdx_append2_left]
  simp only [mkUser, mkAsst, jGet, jGetAttrD, assocFind, JVal.isStr, jSetD, assocSet,
    except_bind_ok_red, except_bind_error_red, except_pure_red,
    htr, hth, hfirst, listSetIdx_append2_left,
    beq_self_eq_true, Bool.not_false, Bool.not_true, if_true, if_false,
    eq_self_iff_true, Bool.false_eq_true,
    Option.getD_some, List.isEmpty_cons,
    show (("content" : String) == "role") = false from rfl,
    show (("role" : String) == "content") = false from rfl]

/-- C3 (amended): the thinking-block reorder performed by the request
builder is an in-place mutation, not a pure transformation: under the
reorder conditions it returns a request body whose messages carry the
reordered content, and the caller-supplied messages list itself ends up
holding the reordered second-to-last message (body and caller list refer
to the same reordered data). -/
theorem c3_reorder_mutates_amended (kw : JObj) (pre ablocks ublocks : List JVal)
    (b0f : JObj) (abrest : List JVal)
    (hkw : thinking_in_params kw = true)
    (hab : ablocks = .jobj b0f :: abrest)
    (hth : (thinkingBlocksOf ablocks).isEmpty = false)
    (hfirst : isThinkingType ((assocFind b0f "type").getD .jnull) = false)
    (htr : hasToolResult ublocks = true) :
    ∃ b : JObj,
      prepare_input "anthropic" kw none none
          (some (pre ++ [mkAsst ablocks, mkUser ublocks])) none none none
        = .ok ⟨b, some (pre ++ [mkAsst (thinkingBlocksOf ablocks ++ nonThinkingDictBlocksOf ablocks),
                                mkUser ublocks])⟩
      ∧ assocFind b "messages"
          = some (.jarr (pre ++ [mkAsst (thinkingBlocksOf ablocks ++ nonThinkingDictBlocksOf ablocks),
                                 mkUser ublocks])) := by
  have hreo := reorder_append2 pre ablocks ublocks b0f abrest hab hth hfirst htr
  have hne : (pre ++ [mkAsst ablocks, mkUser ublocks]).isEmpty = false := by
    cases pre <;> rfl
  unfold prepare_input
  simp only [beq_self_eq_true, if_true, hne, hkw, hreo,
    Bool.not_false, Bool.not_true, if_false, Bool.false_eq_true,
    optListTruthy, optStrTruthy, optIntTruthy, Option.getD_none,
    except_bind_ok_red, except_bind_error_red, except_pure_red]
  refine ⟨_, rfl, ?_⟩
  by_cases hmt : (assocFind
      (assocSet (assocSet kw "anthropic_version" (.jstr "bedrock-2023-05-31")) "messages"
        (.jarr (pre ++ [mkAsst (thinkingBlocksOf ablocks ++ nonThinkingDictBlocksOf ablocks),
                        mkUser ublocks])))
      "max_tokens").isNone = true
  · rw [if_pos hmt, assocFind_assocSet_ne _ "max_tokens" "messages" _ (by rfl), assocFind_assocSet_eq]
  · rw [if_neg hmt, assocFind_assocSet_eq]

/-- Witness for C3: the amended theorem at the concrete thinking-enabled
input. -/
theorem c3_witness :
    ∃ b : JObj,
      prepare_input "anthropic" kwT none none
          (some ([] ++ [mkAsst [textB, thinkB], mkUser [trB]])) none none none
        = .ok ⟨b, some ([] ++ [mkAsst (thinkingBlocksOf [textB, thinkB]
                                ++ nonThinkingDictBlocksOf [textB, thinkB]), mkUser [trB]])⟩
      ∧ assocFind b "messages"
          = some (.jarr ([] ++ [mkAsst (thinkingBlocksOf [textB, thinkB]
                                ++ nonThinkingDictBlocksOf [textB, thinkB]), mkUser [trB]])) :=
  c3_reorder_mutates_amended kwT [] [textB, thinkB] [trB]
    [("type", .jstr "text"), ("text", .jstr "hi")] [thinkB] rfl rfl rfl rfl rfl

theorem syncStepAfter_tagsOk (provider output_key : String) (mapi coerce : Bool)
    (obj : JVal) : tagsOkStep (syncStepAfter provider output_key mapi coerce obj) := by
  unfold syncStepAfter
  cases hconv : _stream_response_to_generation_chunk obj provider output_key mapi coerce with
  | error e => exact ⟨0, rfl⟩
  | ok oc =>
      cases htc : syncTerminalCheck provider output_key mapi obj with
      | error e => cases oc with
          | none => exact ⟨0, rfl⟩
          | some c => exact ⟨1, rfl⟩
      | ok b =>
          cases b with
          | false => cases oc with
              | none => exact ⟨0, rfl⟩
              | some c => exact ⟨1, rfl⟩
          | true =>
              cases hm : _get_invocation_metrics_chunk obj with
              | error e => cases oc with
                  | none => exact ⟨0, rfl⟩
                  | some c => exact ⟨1, rfl⟩
              | ok mc =>
                  cases oc with
                  | none => exact ⟨0, rfl⟩
                  | some c => exact ⟨1, rfl⟩

theorem syncStep_tagsOk (provider output_key : String) (mapi coerce : Bool)
    (obj : JVal) : tagsOkStep (syncStep provider output_key mapi coerce obj) := by
  unfold syncStep
  split
  · exact ⟨0, rfl⟩
  · split
    · cases hcf : cohereFinished obj output_key with
      | error e => exact ⟨0, rfl⟩
      | ok b =>
          cases b with
          | true => exact ⟨0, rfl⟩
          | false => exact syncStepAfter_tagsOk provider output_key mapi coerce obj
    · exact syncStepAfter_tagsOk provider output_key mapi coerce obj

theorem streamGo_tagsOk (provider output_key : String) (mapi coerce : Bool)
    (events : List (Option JVal)) :
    tagsOkRes (streamGo provider output_key mapi coerce events) := by
  induction events with
  | nil => exact ⟨0, rfl⟩
  | cons e rest ih =>
      cases e with
      | none => simpa only [streamGo] using ih
      | some obj =>
          have hstep := syncStep_tagsOk provider output_key mapi coerce obj
          rw [streamGo]
          cases hs : syncStep provider output_key mapi coerce obj with
          | halt em out =>
              rw [hs] at hstep
              cases out <;> exact hstep
          | cont em =>
              rw [hs] at hstep
              obtain ⟨n, hn⟩ := hstep
              cases hgo : streamGo provider output_key mapi coerce rest with
              | mk cs out =>
                  rw [hgo] at ih
                  cases out with
                  | metricsEnd =>
                      obtain ⟨m, hm⟩ := ih
                      exact ⟨n + m, by
                        rw [List.map_append, hn, hm, List.replicate_add, List.append_assoc]⟩
                  | exhausted =>
                      obtain ⟨m, hm⟩ := ih
                      exact ⟨n + m, by rw [List.map_append, hn, hm, List.replicate_add]⟩
                  | sentinelEnd =>
                      obtain ⟨m, hm⟩ := ih
                      exact ⟨n + m, by rw [List.map_append, hn, hm, List.replicate_add]⟩
                  | errored e =>
                      obtain ⟨m, hm⟩ := ih
                      exact ⟨n + m, by rw [List.map_append, hn, hm, List.replicate_add]⟩

/-- C4: the synchronous stream decoder emits at most one terminal usage
chunk: exactly one, in final position, when the run terminated through a
stop-reason or message_stop branch (outcome metricsEnd), and none when
the stream was exhausted, terminated by a sentinel (writer "[DONE]",
cohere is_finished or EOS token) or failed; no chunk of any kind follows
the terminal chunk. -/
theorem c4_terminal_usage_chunk (provider : String) (body : Option (List (Option JVal)))
    (stop : Option (List String)) (messages_api coerce : Bool) :
    ((prepare_output_stream provider body stop messages_api coerce).2 = .metricsEnd →
      ∃ n, (prepare_output_stream provider body stop messages_api coerce).1.map Prod.fst
            = List.replicate n false ++ [true])
    ∧ ((prepare_output_stream provider body stop messages_api coerce).2 ≠ .metricsEnd →
      ∃ n, (prepare_output_stream provider body stop messages_api coerce).1.map Prod.fst
            = List.replicate n false) := by
  have h : tagsOkRes (prepare_output_stream provider body stop messages_api coerce) := by
    unfold prepare_output_stream
    cases body with
    | none => exact ⟨0, rfl⟩
    | some events =>
        dsimp only
        split
        · rw [if_neg (by decide)]
          exact streamGo_tagsOk provider "message" messages_api coerce events
        · split
          · exact ⟨0, rfl⟩
          · exact streamGo_tagsOk provider _ messages_api coerce events
  cases hres : prepare_output_stream provider body stop messages_api coerce with
  | mk cs out =>
      rw [hres] at h
      cases out with
      | metricsEnd => exact ⟨fun _ => h, fun hne => absurd rfl hne⟩
      | exhausted => exact ⟨fun hc => absurd hc (by simp), fun _ => h⟩
      | sentinelEnd => exact ⟨fun hc => absurd hc (by simp), fun _ => h⟩
      | errored e => exact ⟨fun hc => absurd hc (by simp), fun _ => h⟩

/-- Witness for C4: at a concrete meta stream terminating on stop reason
"stop", the decoder ends with exactly one terminal usage chunk. -/
theorem c4_witness :
    ∃ n, (prepare_output_stream "meta" (some [some metaStop]) none false false).1.map Prod.fst
          = List.replicate n false ++ [true] :=
  (c4_terminal_usage_chunk "meta" (some [some metaStop]) none false false).1 rfl

theorem lookupStr_ne_empty (p k : String)
    (h : lookupStr provider_to_output_key_map p = some k) : ¬ k = "" := by
  simp only [provider_to_output_key_map, lookupStr] at h
  split_ifs at h <;> injection h with h2 <;> subst h2 <;> decide

/-- With the messages protocol off and a provider having no sync-only
termination branch, one iteration of the async loop body behaves exactly
as one iteration of the sync loop body. -/
theorem asyncStep_eq_syncStep (provider output_key : String) (coerce : Bool) (obj : JVal)
    (hw : (provider == "writer") = false) (hd : (provider == "deepseek") = false)
    (hmi : (provider == "mistral") = false) (hme : (provider == "meta") = false) :
    asyncStep provider output_key false coerce obj
      = syncStep provider output_key false coerce obj := by
  unfold asyncStep syncStep syncStepAfter asyncStepConvert syncTerminalCheck
  simp only [hw, hd, hmi, hme, Bool.false_and, Bool.false_eq_true, if_false,
    except_pure_red]
  cases hc : provider == "cohere" with
  | false =>
      simp only [Bool.false_eq_true, if_false]
      cases hconv : _stream_response_to_generation_chunk obj provider output_key false coerce with
      | error e => rfl
      | ok oc => cases oc <;> rfl
  | true =>
      simp only [if_true]
      cases hcf : cohereFinished obj output_key with
      | error e => rfl
      | ok b =>
          cases b with
          | true => rfl
          | false =>
              cases hconv : _stream_response_to_generation_chunk obj provider output_key false coerce with
              | error e => rfl
              | ok oc => cases oc <;> rfl

theorem astreamGo_eq_streamGo (provider output_key : String) (coerce : Bool)
    (hw : (provider == "writer") = false) (hd : (provider == "deepseek") = false)
    (hmi : (provider == "mistral") = false) (hme : (provider == "meta") = false)
    (events : List (Option JVal)) :
    astreamGo provider output_key false coerce events
      = streamGo provider output_key false coerce events := by
  induction events with
  | nil => rfl
  | cons e rest ih =>
      cases e with
      | none =>
          rw [astreamGo, streamGo]
          exact ih
      | some obj =>
          rw [astreamGo, streamGo,
            asyncStep_eq_syncStep provider output_key coerce obj hw hd hmi hme]
          cases syncStep provider output_key false coerce obj with
          | halt em out => rfl
          | cont em => rw [ih]

/-- C1 (amended): with the messages protocol off and for providers
without a sync-only termination branch (every provider other than
writer, deepseek, mistral and meta), the asynchronous decoder yields
exactly the same chunk sequence and outcome as the synchronous one; for
writer, deepseek, mistral, meta and the messages path the two diverge at
termination (see the counterexample). -/
theorem c1_async_sync_agree_amended (provider : String)
    (hp : provider ∉ (["writer", "deepseek", "mistral", "meta"] : List String))
    (body : Option (List (Option JVal))) (stop : Option (List String)) (coerce : Bool) :
    aprepare_output_stream provider body stop false coerce
      = prepare_output_stream provider body stop false coerce := by
  simp only [List.mem_cons, List.not_mem_nil, or_false, not_or] at hp
  obtain ⟨hw, hd, hmi, hme⟩ := hp
  have hw2 : (provider == "writer") = false := by simp [hw]
  have hd2 : (provider == "deepseek") = false := by simp [hd]
  have hmi2 : (provider == "mistral") = false := by simp [hmi]
  have hme2 : (provider == "meta") = false := by simp [hme]
  cases body with
  | none => rfl
  | some events =>
      unfold aprepare_output_stream prepare_output_stream
      cases hl : lookupStr provider_to_output_key_map provider with
      | none => simp [hl]
      | some k =>
          have hk : ¬ k = "" := lookupStr_ne_empty provider k hl
          simp only [hl, Option.getD_some, Bool.false_eq_true, if_false]
          rw [if_neg (by simpa using hk)]
          exact astreamGo_eq_streamGo provider k coerce hw2 hd2 hmi2 hme2 events

/-- Witness for C1: the amended theorem at a concrete anthropic
completion stream. -/
theorem c1_witness :
    aprepare_output_stream "anthropic" (some [some anthCompObj]) none false false
      = prepare_output_stream "anthropic" (some [some anthCompObj]) none false false :=
  c1_async_sync_agree_amended "anthropic" (by decide) (some [some anthCompObj]) none false

/-- C8: for every provider and response, a successful parse reads the
four token-count transport headers (input, output, cache-read-input,
cache-write-input), defaulting each to 0 when absent, and totals them as
prompt + cache read + completion. -/
theorem c8_usage_from_headers (provider : String) (response : BedrockResponse)
    (out : PrepareOutputResult) (h : prepare_output provider response = .ok out) :
    jToIntPy ((assocFind response.httpHeaders "x-amzn-bedrock-input-token-count").getD (.jint 0))
        = .ok out.usage.prompt_tokens
    ∧ jToIntPy ((assocFind response.httpHeaders "x-amzn-bedrock-output-token-count").getD (.jint 0))
        = .ok out.usage.completion_tokens
    ∧ jToIntPy ((assocFind response.httpHeaders "x-amzn-bedrock-cache-read-input-token-count").getD (.jint 0))
        = .ok out.usage.cache_read_input_tokens
    ∧ jToIntPy ((assocFind response.httpHeaders "x-amzn-bedrock-cache-write-input-token-count").getD (.jint 0))
        = .ok out.usage.cache_write_input_tokens
    ∧ out.usage.total_tokens
        = out.usage.prompt_tokens + out.usage.cache_read_input_tokens
          + out.usage.completion_tokens := by
  unfold prepare_output at h
  obtain ⟨ttt, h1, h⟩ := except_bind_ok_elim h
  obtain ⟨u, h2, h⟩ := except_bind_ok_elim h
  obtain ⟨sr, h3, h⟩ := except_bind_ok_elim h
  rw [except_pure_red] at h
  injection h with h
  subst h
  unfold computeUsage at h2
  obtain ⟨p, hp, h2⟩ := except_bind_ok_elim h2
  obtain ⟨c, hc, h2⟩ := except_bind_ok_elim h2
  obtain ⟨cr, hcr, h2⟩ := except_bind_ok_elim h2
  obtain ⟨cw, hcw, h2⟩ := except_bind_ok_elim h2
  rw [except_pure_red] at h2
  injection h2 with h2
  subst h2
  exact ⟨hp, hc, hcr, hcw, rfl⟩

/-- Witness for C8: the theorem at a concrete anthropic response with an
input-token header "7", an output-token header 3 and no cache headers. -/
theorem c8_witness :
    jToIntPy ((assocFind respC8.httpHeaders "x-amzn-bedrock-input-token-count").getD (.jint 0))
        = .ok outC8.usage.prompt_tokens
    ∧ jToIntPy ((assocFind respC8.httpHeaders "x-amzn-bedrock-output-token-count").getD (.jint 0))
        = .ok outC8.usage.completion_tokens
    ∧ jToIntPy ((assocFind respC8.httpHeaders "x-amzn-bedrock-cache-read-input-token-count").getD (.jint 0))
        = .ok outC8.usage.cache_read_input_tokens
    ∧ jToIntPy ((assocFind respC8.httpHeaders "x-amzn-bedrock-cache-write-input-token-count").getD (.jint 0))
        = .ok outC8.usage.cache_write_input_tokens
    ∧ outC8.usage.total_tokens
        = outC8.usage.prompt_tokens + outC8.usage.cache_read_input_tokens
          + outC8.usage.completion_tokens :=
  c8_usage_from_headers "anthropic" respC8 outC8 rfl

end BedrockSpec
